import Mathlib

/-!
Shallow embedding of the serpent-tools repository sources
(`serpentTools/objects/containers.py`, `serpentTools/objects/materials.py`,
`serpentTools/parsers/detector.py`) used to check the specification's claims.

Python dictionaries are modelled as association lists, numpy arrays as
`NpArr` (a 1-D list of rationals or a 2-D list of rows), Python exceptions
as the `PyErr` error type of an `Except` computation.  All definitions are
translated from the source files; the few pieces of the repository that are
imported by the sources but not provided (the `Detector` container class,
the message/normalization helpers) are modelled from the spec and marked as
such in their doc comments.
-/

/-- Python exception kinds raised by the modelled code.  `keyError` carries
the list of missing items that the Python message is built from by
`', '.join(...)`, so that enumeration of missing items is preserved. -/
inductive PyErr where
  | keyError (items : List String)
  | attrError (msg : String)
  | typeError (msg : String)
  | valueError (msg : String)
  | indexError (msg : String)
  | classificationError (msg : String)
  deriving DecidableEq, Repr

instance {ε α : Type} [DecidableEq ε] [DecidableEq α] :
    DecidableEq (Except ε α) := fun x y =>
  match x, y with
  | .ok a, .ok b =>
    if h : a = b then isTrue (by rw [h]) else isFalse (by simp [h])
  | .error a, .error b =>
    if h : a = b then isTrue (by rw [h]) else isFalse (by simp [h])
  | .ok _, .error _ => isFalse (by simp)
  | .error _, .ok _ => isFalse (by simp)

/-- Association-list lookup, modelling Python `d.get(k)` / `d[k]`. -/
def alGet? {κ α : Type} [DecidableEq κ] (d : List (κ × α)) (k : κ) : Option α :=
  (d.find? (fun p => p.1 = k)).map Prod.snd

/-- Association-list membership, modelling Python `k in d`. -/
def alContains {κ α : Type} [DecidableEq κ] (d : List (κ × α)) (k : κ) : Bool :=
  (alGet? d k).isSome

/-- Replace the value stored at a key that is already present,
modelling Python `d[k] = v` when `k in d`. -/
def alSet {κ α : Type} [DecidableEq κ] (d : List (κ × α)) (k : κ) (v : α) :
    List (κ × α) :=
  d.map (fun p => if p.1 = k then (p.1, v) else p)

/-- Python `d[k] = v`: replace when present, append when absent. -/
def alInsert {κ α : Type} [DecidableEq κ] (d : List (κ × α)) (k : κ) (v : α) :
    List (κ × α) :=
  if alContains d k then alSet d k v else d ++ [(k, v)]

/-- `hasPrefixC pat s` holds when `pat` is a prefix of `s`. -/
def hasPrefixC : List Char → List Char → Bool
  | [], _ => true
  | _ :: _, [] => false
  | p :: ps, c :: cs => p = c && hasPrefixC ps cs

/-- `hasSubstr pat s`: `pat` occurs as a contiguous substring of `s`,
modelling Python `pat in s` on strings. -/
def hasSubstr (pat : List Char) : List Char → Bool
  | [] => hasPrefixC pat []
  | c :: cs => hasPrefixC pat (c :: cs) || hasSubstr pat cs

/-- Python `pat in s` for strings. -/
def strContains (s pat : String) : Bool :=
  hasSubstr pat.toList s.toList

/-- Truthiness of an optional list argument, modelling Python `if names:`
(`None` and `[]` are falsy, a non-empty list is truthy). -/
def pyListTruthy {α : Type} : Option (List α) → Bool
  | some (_ :: _) => true
  | _ => false

/-- Split a character list at every separator, keeping empty pieces,
modelling Python `s.split(sep)`: `"a__b" ↦ ["a", "", "b"]`. -/
def splitChars (p : Char → Bool) : List Char → List (List Char)
  | [] => [[]]
  | c :: cs =>
    if p c then [] :: splitChars p cs
    else
      match splitChars p cs with
      | [] => [[c]]
      | w :: ws => (c :: w) :: ws

/-- Python `s.split(sep)` on strings. -/
def pySplit (s : String) (p : Char → Bool) : List String :=
  (splitChars p s.toList).map String.mk

/-- Python `str(q)` for the rational numbers standing in for Python's
numeric time points: integral values print without a denominator,
matching `str(15) = "15"`. -/
def pyStr (q : ℚ) : String :=
  if q.den = 1 then toString q.num else toString q.num ++ "/" ++ toString q.den

/-- Modelled from the spec: `_SupportingObject._convertVariableName` lives in
`serpentTools/objects/__init__.py`, which is not among the provided sources.
Per the spec a variable name is case/whitespace canonicalized before any
storage or lookup; following the repository's SERPENT-style convention this
turns an underscored upper-case name into camelCase
(`"INF_FLX" ↦ "infFlx"`). -/
def convertVariableName (name : String) : String :=
  match splitChars (fun c => c = '_') name.toList with
  | [] => ""
  | h :: t =>
    String.mk (h.map Char.toLower ++
      (t.map (fun w =>
        match w with
        | [] => ([] : List Char)
        | c :: rest => c.toUpper :: rest.map Char.toLower)).flatten)

/-- `HomogUniv` (containers.py): universe metadata plus the four variable
dictionaries `b1Exp`, `infExp`, `b1Unc`, `infUnc`. -/
structure HomogUniv (α : Type) where
  name : String
  bu : ℚ
  step : ℚ
  day : ℚ
  b1Exp : List (String × α)
  infExp : List (String × α)
  b1Unc : List (String × α)
  infUnc : List (String × α)

/-- Which of the four dictionaries `HomogUniv._lookup` returned. -/
inductive Slot where
  | infExpS
  | infUncS
  | b1ExpS
  | b1UncS
  deriving DecidableEq, Repr

/-- Read the dictionary selected by a slot. -/
def HomogUniv.getDict {α : Type} (u : HomogUniv α) : Slot → List (String × α)
  | .infExpS => u.infExp
  | .infUncS => u.infUnc
  | .b1ExpS => u.b1Exp
  | .b1UncS => u.b1Unc

/-- Write back the dictionary selected by a slot. -/
def HomogUniv.setDict {α : Type} (u : HomogUniv α) (s : Slot)
    (d : List (String × α)) : HomogUniv α :=
  match s with
  | .infExpS => { u with infExp := d }
  | .infUncS => { u with infUnc := d }
  | .b1ExpS => { u with b1Exp := d }
  | .b1UncS => { u with b1Unc := d }

/-- `HomogUniv._lookup` (containers.py lines 79-93): substring probe for the
`inf` family, then the `b1` family; a name in neither family reaches
`messages.error('Neither inf, nor b1 in the string')`.  The `messages`
module is not among the provided sources; modelled from the spec, which
makes a failed classification fatal (the caller's call aborts), the fall
through raises a classification error. -/
def lookupSlot (variablename : String) (uncertainty : Bool) : Except PyErr Slot :=
  if strContains variablename "inf" then
    if !uncertainty then .ok .infExpS else .ok .infUncS
  else if strContains variablename "b1" then
    if !uncertainty then .ok .b1ExpS else .ok .b1UncS
  else
    .error (.classificationError "Neither inf, nor b1 in the string")

/-- `HomogUniv.set` (containers.py lines 42-61): normalize the name, pick the
dictionary via `_lookup`, warn (non-fatally) when the key is already present,
then store.  Returns the updated universe together with the number of
overwrite warnings the call emitted.  The uncertainty flag is `Bool` in the
embedding, so the non-boolean-flag branch is unrepresentable. -/
def HomogUniv.set {α : Type} (u : HomogUniv α) (variablename : String)
    (variablevalue : α) (uncertainty : Bool) :
    Except PyErr (HomogUniv α × Nat) := do
  let vn := convertVariableName variablename
  let slot ← lookupSlot vn uncertainty
  let d := u.getDict slot
  let warns := if alContains d vn then 1 else 0
  .ok (u.setDict slot (alInsert d vn variablevalue), warns)

/-- Result shape of `HomogUniv.get`: with `uncertainty=False` Python returns
the single dictionary read `x` (possibly `None`, hence `Option`), with
`uncertainty=True` it returns the tuple `(x, dx)`. -/
inductive PyGetResult (α : Type) where
  | single (x : Option α)
  | pair (x dx : Option α)
  deriving DecidableEq, Repr

/-- `HomogUniv.get` (containers.py lines 63-77): normalize, pick the
dictionary via `_lookup`, read `x = setter.get(name)`; when uncertainty is
requested, read `dx = setter.get(name)` from the same dictionary and return
the pair `(x, dx)`. -/
def HomogUniv.get {α : Type} (u : HomogUniv α) (variablename : String)
    (uncertainty : Bool) : Except PyErr (PyGetResult α) := do
  let vn := convertVariableName variablename
  let slot ← lookupSlot vn uncertainty
  let d := u.getDict slot
  let x := alGet? d vn
  if !uncertainty then
    .ok (.single x)
  else
    let dx := alGet? d vn
    .ok (.pair x dx)

/-- A concrete empty universe used by witnesses. -/
def emptyUniv : HomogUniv ℚ :=
  { name := "u0", bu := 0, step := 0, day := 0,
    b1Exp := [], infExp := [], b1Unc := [], infUnc := [] }

/-- A numpy array as stored in `DepletedMaterial.data`: 1-D (`vec`) or 2-D
(`mat`, a list of rows). -/
inductive NpArr where
  | vec (xs : List ℚ)
  | mat (rows : List (List ℚ))
  deriving DecidableEq, Repr

/-- `len(a)` along axis 0: `shape[0]`. -/
def npLen : NpArr → Nat
  | .vec xs => xs.length
  | .mat rows => rows.length

/-- numpy membership `t in a`: any element of the (flattened) array equals
`t`; for a 1-D array this is element membership, for a 2-D array numpy
also tests every element. -/
def npFlatMem (a : NpArr) (t : ℚ) : Bool :=
  match a with
  | .vec xs => decide (t ∈ xs)
  | .mat rows => rows.any (fun r => decide (t ∈ r))

/-- `DepletedMaterial` (materials.py): name, the metadata sequences `names`
and `days` taken from the parser (each possibly never loaded, i.e. `None`),
and the `data` dictionary from category name to array. -/
structure DepletedMaterial where
  name : String
  names : Option (List String)
  days : Option (List ℚ)
  data : List (String × NpArr)
  deriving DecidableEq, Repr

/-- Resolution of the x-axis shared by `_checkTimePoints` and `_getXSlice`
(materials.py lines 167 and 172): `self.days` when `xUnits == 'days'`
(a `TypeError` when `days` was never loaded), otherwise `self.data[xUnits]`
(a `KeyError` when absent). -/
def resolveAxisArr (dm : DepletedMaterial) (xUnits : String) :
    Except PyErr NpArr :=
  if xUnits = "days" then
    match dm.days with
    | some ds => .ok (.vec ds)
    | none => .error (.typeError "argument of type NoneType is not iterable")
  else
    match alGet? dm.data xUnits with
    | some a => .ok a
    | none => .error (.keyError [xUnits])

/-- `DepletedMaterial._checkTimePoints` (materials.py lines 166-169):
`[str(time) for time in timePoints if time not in valid]`, in request
order. -/
def checkTimePoints (dm : DepletedMaterial) (xUnits : String)
    (timePoints : List ℚ) : Except PyErr (List String) := do
  let valid ← resolveAxisArr dm xUnits
  .ok ((timePoints.filter (fun t => !(npFlatMem valid t))).map pyStr)

/-- `DepletedMaterial._getXSlice` (materials.py lines 171-180): with
`timePoints` given, `colIndices` enumerates the positions of `allX` whose
value occurs in `timePoints` and `xVals = allX[colIndices]`; otherwise
`colIndices` is `None` and `xVals` is the whole axis.  Filtering a 2-D
axis raises (the `xx in timePoints` comparison on a row array is
ambiguous in numpy). -/
def getXSlice (dm : DepletedMaterial) (xUnits : String)
    (timePoints : Option (List ℚ)) :
    Except PyErr (NpArr × Option (List Nat)) := do
  let allX ← resolveAxisArr dm xUnits
  match timePoints with
  | none => .ok (allX, none)
  | some tp =>
    match allX with
    | .vec xs =>
      let colIndices :=
        (xs.enum.filter (fun p => decide (p.2 ∈ tp))).map Prod.fst
      .ok (.vec (colIndices.map (fun i => xs.getD i 0)), some colIndices)
    | .mat _ =>
      .error (.valueError "truth value of an array is ambiguous")

/-- Python `list.index`: position of the first occurrence, `none` for the
`ValueError` on a missing element. -/
def pyIndex? (sns : List String) (n : String) : Option Nat :=
  match sns with
  | [] => none
  | s :: ss => if s = n then some 0 else (pyIndex? ss n).map (fun i => i + 1)

/-- `self.names.index(isotope)` for each requested isotope in order
(materials.py lines 188-190); a missing isotope raises `ValueError`. -/
def indexAll (sns : List String) : List String → Except PyErr (List Nat)
  | [] => .ok []
  | n :: ns =>
    match pyIndex? sns n with
    | some i => do
      let rest ← indexAll sns ns
      .ok (i :: rest)
    | none => .error (.valueError (n ++ " is not in list"))

/-- `DepletedMaterial._getIsoID` (materials.py lines 182-191): a falsy
`isotopes` argument selects every row of `self.names` (a `TypeError` when
`names` was never loaded, from `len(None)`); otherwise each name is looked
up with `self.names.index` (an `AttributeError` on `None`). -/
def getIsoID (dm : DepletedMaterial) (isotopes : Option (List String)) :
    Except PyErr (List Nat) :=
  if pyListTruthy isotopes then
    match dm.names with
    | some sns => indexAll sns (isotopes.getD [])
    | none => .error (.attrError "NoneType object has no attribute index")
  else
    match dm.names with
    | some sns => .ok (List.range sns.length)
    | none => .error (.typeError "object of type NoneType has no len")

/-- Python truthiness of `colIndices` (`None` and `[]` falsy). -/
def optTruthy : Option (List Nat) → Bool
  | some (_ :: _) => true
  | _ => false

/-- numpy fancy indexing `xs[cs]` with a bounds check per index. -/
def fancyIdx {α : Type} (xs : List α) : List Nat → Except PyErr (List α)
  | [] => .ok []
  | c :: cs =>
    if h : c < xs.length then do
      let rest ← fancyIdx xs cs
      .ok (xs.get ⟨c, h⟩ :: rest)
    else .error (.indexError "index out of bounds for axis 0")

/-- The fill loop of `getValues` (materials.py lines 160-163): for each
requested row id, read `allY[rowId]`, slice it by `colIndices` when those
are truthy, and assign into the preallocated `(len(rowIndices), len(xVals))`
result, which demands the assigned row have exactly `targetLen` entries
(numpy broadcast error otherwise). -/
def buildRows (rows : List (List ℚ)) (colIndices : Option (List Nat))
    (targetLen : Nat) : List Nat → Except PyErr (List (List ℚ))
  | [] => .ok []
  | r :: rs => do
    let row ←
      (if h : r < rows.length then .ok (rows.get ⟨r, h⟩)
       else .error (.indexError "index out of bounds for axis 0"))
    let slice ←
      (if optTruthy colIndices then fancyIdx row (colIndices.getD [])
       else .ok row)
    if slice.length = targetLen then do
      let rest ← buildRows rows colIndices targetLen rs
      .ok (slice :: rest)
    else .error (.valueError "could not broadcast input array")

/-- The slicing tail of `getValues` (materials.py lines 156-164): a 1-D
array, or a 2-D array with a single row, takes the vector branch
`allY[colIndices] if colIndices else allY` (on a 2-D array this fancy
indexing selects rows); otherwise the row/column fill loop runs. -/
def sliceY (allY : NpArr) (xVals : NpArr) (colIndices : Option (List Nat))
    (rowIndices : List Nat) : Except PyErr NpArr :=
  match allY with
  | .vec xs =>
    if optTruthy colIndices then do
      let ys ← fancyIdx xs (colIndices.getD [])
      .ok (.vec ys)
    else .ok (.vec xs)
  | .mat rows =>
    if rows.length = 1 then
      if optTruthy colIndices then do
        let rs ← fancyIdx rows (colIndices.getD [])
        .ok (.mat rs)
      else .ok (.mat rows)
    else do
      let rs ← buildRows rows colIndices (npLen xVals) rowIndices
      .ok (.mat rs)

/-- `getValues` after the two argument checks (materials.py lines 154-164):
resolve the x slice, the row ids, then `allY = self.data[yUnits]` and the
slicing tail. -/
def getValuesBody (dm : DepletedMaterial) (xUnits yUnits : String)
    (timePoints : Option (List ℚ)) (names : Option (List String)) :
    Except PyErr NpArr := do
  let xres ← getXSlice dm xUnits timePoints
  let rowIndices ← getIsoID dm names
  match alGet? dm.data yUnits with
  | some allY => sliceY allY xres.1 xres.2 rowIndices
  | none => .error (.keyError [yUnits])

/-- `DepletedMaterial.getValues` (materials.py lines 114-164): validate the
requested time points (raising a `KeyError` that joins every missing point),
then the isotope-names precondition (`AttributeError` when names were
requested but never loaded), then slice. -/
def getValues (dm : DepletedMaterial) (xUnits yUnits : String)
    (timePoints : Option (List ℚ)) (names : Option (List String)) :
    Except PyErr NpArr := do
  (match timePoints with
   | some tp => do
     let timeCheck ← checkTimePoints dm xUnits tp
     if timeCheck ≠ [] then
       .error (.keyError timeCheck)
     else .ok ()
   | none => .ok ())
  if pyListTruthy names && dm.names.isNone then
    .error (.attrError "Isotope names not stored on DepletedMaterial")
  else
    getValuesBody dm xUnits yUnits timePoints names

/-- Python `s.split()` (no argument): split on whitespace runs, dropping
empty pieces. -/
def pySplitWs (s : String) : List String :=
  (pySplit s (fun c => c = ' ' || c = '\t' || c = '\n' || c = '\r')).filter
    (fun w => w ≠ "")

/-- Python `float(token)` restricted to the numeric literals the modelled
files contain: an optional sign, digits, an optional fractional part.
`none` models a `ValueError`. -/
def pyFloat? (s : String) : Option ℚ :=
  let core : List Char → Option ℚ := fun cs =>
    let intPart := cs.takeWhile Char.isDigit
    let rest := cs.dropWhile Char.isDigit
    let digitsVal : List Char → Nat := fun ds =>
      ds.foldl (fun a c => a * 10 + (c.toNat - 48)) 0
    match rest with
    | [] =>
      if intPart = [] then none else some (digitsVal intPart)
    | '.' :: frac =>
      if frac.all Char.isDigit ∧ (intPart ≠ [] ∨ frac ≠ []) then
        some ((digitsVal intPart : ℚ) +
          (digitsVal frac : ℚ) / ((10 : ℚ) ^ frac.length))
      else none
    | _ => none
  match s.toList with
  | '-' :: cs => (core cs).map Neg.neg
  | '+' :: cs => core cs
  | cs => core cs

/-- `[float(xx) for xx in line.split()]`: a token that is not a float
raises `ValueError`. -/
def parseTokens : List String → Except PyErr (List ℚ)
  | [] => .ok []
  | t :: ts =>
    match pyFloat? t with
    | some q => do
      let rest ← parseTokens ts
      .ok (q :: rest)
    | none => .error (.valueError "could not convert string to float")

/-- The row-fill loop of `_addDetector` (detector.py lines 60-61): each line
is split, converted to floats and assigned into the preallocated
`(len(chunk), ncols)` array, so every line must produce exactly `ncols`
values (numpy broadcast error otherwise). -/
def parseRows (ncols : Nat) : List String → Except PyErr (List (List ℚ))
  | [] => .ok []
  | l :: ls => do
    let row ← parseTokens (pySplitWs l)
    if row.length = ncols then do
      let rest ← parseRows ncols ls
      .ok (row :: rest)
    else .error (.valueError "could not broadcast input array")

/-- `NUM_COLS` (detector.py line 11): columns in a tally line. -/
def NUM_COLS : Nat := 12

/-- Modelled from the spec: the `Detector` container class
(`serpentTools.objects.containers.Detector`) is imported by the detector
parser but absent from the provided sources.  Per the spec a binned record
container holds a name, a tally array set once via `addTallyData`, and a
mapping from bin-dimension label to grid array (`None` can key the mapping,
as Python allows, when a repeated base name arrives without a suffix). -/
structure Detector where
  name : String
  tally : Option (List (List ℚ))
  grids : List (Option Char × List (List ℚ))
  deriving DecidableEq, Repr

/-- Modelled from the spec: `Detector.addTallyData` stores the defining
tally array on the container. -/
def Detector.addTallyData (d : Detector) (data : List (List ℚ)) : Detector :=
  { d with tally := some data }

/-- `DetectorReader` state (detector.py lines 27-34): the `detectors`
dictionary, the `names` setting, the all-names flag and the precheck
counter. -/
structure DetectorReader where
  detectors : List (String × Detector)
  settingsNames : List String
  loadAll : Bool
  detCount : Nat
  deriving DecidableEq, Repr

/-- The data-build half of `_addDetector` (detector.py lines 56-61): a tally
chunk (`binType is None`) uses `NUM_COLS` columns; a grid chunk takes its
column count from the first line (`chunk[0]`, an `IndexError` on an empty
chunk). -/
def buildData (binType : Option Char) (chunk : List String) :
    Except PyErr (List (List ℚ)) :=
  match binType with
  | none => parseRows NUM_COLS chunk
  | some _ =>
    match chunk with
    | [] => .error (.indexError "list index out of range")
    | l0 :: _ => parseRows (pySplitWs l0).length chunk

/-- `DetectorReader._addDetector` (detector.py lines 55-73): build the data
array, then either create a new container holding it as the tally (first
chunk for the name) or store it as `grids[binType]` on the existing
container. -/
def addDetector (r : DetectorReader) (chunk : List String) (detName : String)
    (binType : Option Char) : Except PyErr DetectorReader := do
  let data ← buildData binType chunk
  if !(alContains r.detectors detName) then
    let fresh := Detector.addTallyData ⟨detName, none, []⟩ data
    .ok { r with detectors := alInsert r.detectors detName fresh }
  else
    match alGet? r.detectors detName with
    | some det =>
      let upd := { det with grids := alInsert det.grids binType data }
      .ok { r with detectors := alSet r.detectors detName upd }
    | none => .error (.keyError [detName])

/-- `chunk.pop(0).split(' ')[0][3:]` (detector.py line 43): first
space-separated token of the chunk's first line, minus the three-character
keyword prefix. -/
def detStringOf (hd : String) : String :=
  String.mk ((((pySplit hd (fun c => c = ' ')).headD "").toList).drop 3)

/-- Python `s[:-1]`. -/
def pyDropLast (s : String) : String :=
  String.mk s.toList.dropLast

/-- Python `s[-1]`, `none` modelling the `IndexError` on an empty string. -/
def pyLastChar (s : String) : Option Char :=
  s.toList.getLast?

/-- One iteration of the chunk loop in `DetectorReader._read` (detector.py
lines 42-52): classify the chunk by its extracted identifier — an existing
base name plus one trailing character makes it a grid chunk, a requested (or
all-names mode) name makes it a defining tally chunk, anything else is
skipped. -/
def processChunk (r : DetectorReader) (chunk : List String) :
    Except PyErr DetectorReader :=
  match chunk with
  | [] => .error (.indexError "pop from empty list")
  | hd :: rest =>
    let detString := detStringOf hd
    if alContains r.detectors (pyDropLast detString) then
      match pyLastChar detString with
      | some c => addDetector r rest (pyDropLast detString) (some c)
      | none => .error (.indexError "string index out of range")
    else if r.settingsNames.contains detString || r.loadAll then
      addDetector r rest detString none
    else
      .ok r

/-- `DetectorReader._read` (detector.py lines 36-53) over an already-chunked
file: fold `processChunk` across the chunks. -/
def readChunks (r : DetectorReader) : List (List String) →
    Except PyErr DetectorReader
  | [] => .ok r
  | c :: cs => do
    let r' ← processChunk r c
    readChunks r' cs

/-- `DetectorReader._precheck` (detector.py lines 75-84): count the
non-blank lines whose first token contains `DET`. -/
def precheckCount : List String → Nat
  | [] => 0
  | l :: ls =>
    (if pySplitWs l ≠ [] ∧ hasSubstr "DET".toList ((pySplitWs l).headD "").toList
     then 1 else 0) + precheckCount ls

/-- `DetectorReader._postcheck` (detector.py lines 86-89): on a count
mismatch, call `error(...)`.  The `serpentTools.messages` module is not
among the provided sources; modelled from the spec, which makes the
count-mismatch report non-fatal and keeps the parsed containers, the call
returns the reader unchanged together with the reported messages. -/
def postcheck (r : DetectorReader) : DetectorReader × List String :=
  if r.detCount ≠ r.detectors.length then
    (r, ["Did not parse expected number of detectors in file"])
  else (r, [])

/-- The series container of the spec's worked example: isotope names
`["Xe135", "Sm149", "total"]`, day axis `[0, 10, 20]`, and an arbitrary
3×3 `adens` array. -/
def mkMat3 (a b c d e f g h i : ℚ) : DepletedMaterial :=
  { name := "fuel",
    names := some ["Xe135", "Sm149", "total"],
    days := some [0, 10, 20],
    data := [("adens", NpArr.mat [[a, b, c], [d, e, f], [g, h, i]])] }

/-- A container whose 2-D `adens` array has exactly one row. -/
def dmSingleRow : DepletedMaterial :=
  { name := "single",
    names := some ["total"],
    days := some [0, 10, 20],
    data := [("adens", NpArr.mat [[1, 2, 3]])] }

/-- A second single-row container (distinct values) for the shape claim. -/
def dmSingleRowB : DepletedMaterial :=
  { name := "singleB",
    names := some ["total"],
    days := some [0, 10, 20],
    data := [("adens", NpArr.mat [[5, 6, 7]])] }

/-- A container with no isotope names loaded. -/
def dmNoNames : DepletedMaterial :=
  { name := "noNames",
    names := none,
    days := some [0, 10, 20],
    data := [("adens", NpArr.mat [[1, 2, 3], [4, 5, 6]])] }

/-- A fresh all-names detector reader. -/
def rdr0 : DetectorReader :=
  { detectors := [], settingsNames := [], loadAll := true, detCount := 0 }

/-- A defining tally chunk for detector `D1` (body after `pop(0)`):
one line of `NUM_COLS` values. -/
def chunkTallyBody : List String :=
  ["1 2 3 4 5 6 7 8 9 10 11 12"]

/-- A grid chunk body for `D1E`. -/
def chunkGridBody : List String :=
  ["0 10", "10 20"]

/-- The in-place grid update performed by `_addDetector` on an existing
container: `detector.grids[binType] = data`. -/
def gridUpdated (old : Detector) (suffix : Char)
    (data : List (List ℚ)) : Detector :=
  { old with grids := alInsert old.grids (some suffix) data }

/-- The reader state after parsing 2 detectors when 3 start lines were
counted. -/
def rdrMismatch : DetectorReader :=
  { detectors :=
      [("D1", ⟨"D1", some [[1]], []⟩), ("D2", ⟨"D2", some [[2]], []⟩)],
    settingsNames := [], loadAll := true, detCount := 3 }

/-- Three detector-start lines, as counted by the precheck. -/
def linesThree : List String :=
  ["DETD1 = [", "1 2", "", "DETD1E = [", "DETD2 = ["]

theorem alGet?_cons {κ α : Type} [DecidableEq κ] (p : κ × α) (ps : List (κ × α))
    (k : κ) : alGet? (p :: ps) k = if p.1 = k then some p.2 else alGet? ps k := by
  by_cases hp : p.1 = k
  · simp [alGet?, List.find?_cons_of_pos, hp]
  · simp [alGet?, List.find?_cons_of_neg, hp]

theorem alContains_cons {κ α : Type} [DecidableEq κ] (p : κ × α)
    (ps : List (κ × α)) (k : κ) :
    alContains (p :: ps) k = if p.1 = k then true else alContains ps k := by
  by_cases hp : p.1 = k <;> simp [alContains, alGet?_cons, hp]

theorem alGet?_alSet_self {κ α : Type} [DecidableEq κ] (d : List (κ × α))
    (k : κ) (v : α) (h : alContains d k = true) :
    alGet? (alSet d k v) k = some v := by
  induction d with
  | nil => simp [alContains, alGet?, List.find?] at h
  | cons p ps ih =>
    rw [alContains_cons] at h
    by_cases hp : p.1 = k
    · simp [alSet, alGet?_cons, hp]
    · rw [if_neg hp] at h
      show alGet? ((if p.1 = k then (p.1, v) else p) :: alSet ps k v) k = some v
      rw [if_neg hp, alGet?_cons, if_neg hp]
      exact ih h

theorem alGet?_append_fresh {κ α : Type} [DecidableEq κ] (d : List (κ × α))
    (k : κ) (v : α) (h : alContains d k = false) :
    alGet? (d ++ [(k, v)]) k = some v := by
  induction d with
  | nil => simp [alGet?, List.find?]
  | cons p ps ih =>
    rw [alContains_cons] at h
    by_cases hp : p.1 = k
    · simp [hp] at h
    · rw [if_neg hp] at h
      rw [List.cons_append, alGet?_cons, if_neg hp]
      exact ih h

theorem alGet?_alInsert_self {κ α : Type} [DecidableEq κ] (d : List (κ × α))
    (k : κ) (v : α) : alGet? (alInsert d k v) k = some v := by
  unfold alInsert
  by_cases h : alContains d k
  · rw [if_pos h]; exact alGet?_alSet_self d k v h
  · rw [if_neg h]; exact alGet?_append_fresh d k v (by simpa using h)

theorem alContains_alInsert_self {κ α : Type} [DecidableEq κ]
    (d : List (κ × α)) (k : κ) (v : α) :
    alContains (alInsert d k v) k = true := by
  simp [alContains, alGet?_alInsert_self]

theorem getDict_setDict_self {α : Type} (u : HomogUniv α) (s : Slot)
    (d : List (String × α)) : (u.setDict s d).getDict s = d := by
  cases s <;> rfl

theorem lookupSlot_true_unc (v : String) (slot : Slot)
    (h : lookupSlot v true = .ok slot) : slot = .infUncS ∨ slot = .b1UncS := by
  unfold lookupSlot at h
  split at h
  · simp_all
  · split at h
    · simp_all
    · simp_all

/-- C2: for every variable name that normalizes into a known family and
whose uncertainty slot holds `dv`, `get(name, uncertainty=True)` returns the
pair `(dv, dv)` — both components are reads of the uncertainty dictionary —
and the expected-value dictionaries are never consulted (replacing them
changes nothing). -/
theorem get_uncertainty_pairs_unc_slot_twice {α : Type}
    (u : HomogUniv α) (name : String) (slot : Slot) (dv : α)
    (hs : lookupSlot (convertVariableName name) true = .ok slot)
    (hv : alGet? (u.getDict slot) (convertVariableName name) = some dv) :
    u.get name true = .ok (.pair (some dv) (some dv)) ∧
    ∀ e1 e2 : List (String × α),
      HomogUniv.get { u with infExp := e1, b1Exp := e2 } name true =
        u.get name true := by
  constructor
  · simp [HomogUniv.get, hs, hv, Bind.bind, Except.bind]
  · intro e1 e2
    rcases lookupSlot_true_unc _ _ hs with h | h <;> subst h <;>
      simp [HomogUniv.get, hs, Bind.bind, Except.bind, HomogUniv.getDict]

theorem get_uncertainty_pairs_unc_slot_twice_witness :
    HomogUniv.get { emptyUniv with infUnc := [("infFlx", (2 : ℚ))] }
      "INF_FLX" true = .ok (.pair (some 2) (some 2)) :=
  (get_uncertainty_pairs_unc_slot_twice
    { emptyUniv with infUnc := [("infFlx", (2 : ℚ))] } "INF_FLX"
    .infUncS 2 (by rfl) (by rfl)).1

/-- C6: for every variable name whose normalized form contains neither
`"inf"` nor `"b1"`, both `set` and `get` abort with the fatal
classification error, for any value and either uncertainty flag; no value
is stored or returned. -/
theorem unclassified_name_set_get_fatal {α : Type} (name : String)
    (hinf : strContains (convertVariableName name) "inf" = false)
    (hb1 : strContains (convertVariableName name) "b1" = false) :
    ∀ (u : HomogUniv α) (v : α) (unc : Bool),
      u.set name v unc =
        .error (.classificationError "Neither inf, nor b1 in the string") ∧
      u.get name unc =
        .error (.classificationError "Neither inf, nor b1 in the string") := by
  intro u v unc
  have hl : lookupSlot (convertVariableName name) unc =
      .error (.classificationError "Neither inf, nor b1 in the string") := by
    simp [lookupSlot, hinf, hb1]
  exact ⟨by simp [HomogUniv.set, hl, Bind.bind, Except.bind],
         by simp [HomogUniv.get, hl, Bind.bind, Except.bind]⟩

theorem unclassified_name_set_get_fatal_witness :
    emptyUniv.set "ABS_KEFF" 0 false =
      .error (.classificationError "Neither inf, nor b1 in the string") ∧
    emptyUniv.get "ABS_KEFF" false =
      .error (.classificationError "Neither inf, nor b1 in the string") :=
  unclassified_name_set_get_fatal "ABS_KEFF" (by decide) (by decide)
    emptyUniv 0 false

/-- C7: for every name that classifies into a known family, `get` right
after `set(name, v)` returns exactly `v`, and a second `set` for the same
normalized name emits exactly one overwrite notification while replacing
the stored value. -/
theorem set_get_roundtrip_and_overwrite {α : Type} (name : String)
    (slot : Slot)
    (hs : lookupSlot (convertVariableName name) false = .ok slot) :
    ∀ (u : HomogUniv α) (v v2 : α),
      ∃ u1 w1 u2,
        u.set name v false = .ok (u1, w1) ∧
        u1.get name false = .ok (.single (some v)) ∧
        u1.set name v2 false = .ok (u2, 1) ∧
        u2.get name false = .ok (.single (some v2)) := by
  intro u v v2
  set vn := convertVariableName name with hvn
  set u1 := u.setDict slot (alInsert (u.getDict slot) vn v) with hu1
  set u2 := u1.setDict slot (alInsert (u1.getDict slot) vn v2) with hu2
  refine ⟨u1, (if alContains (u.getDict slot) vn then 1 else 0), u2,
    ?_, ?_, ?_, ?_⟩
  · simp [HomogUniv.set, hs, ← hvn, Bind.bind, Except.bind, hu1]
  · simp [HomogUniv.get, hs, ← hvn, Bind.bind, Except.bind, hu1,
      getDict_setDict_self, alGet?_alInsert_self]
  · simp [HomogUniv.set, hs, ← hvn, Bind.bind, Except.bind, hu1, hu2,
      getDict_setDict_self, alContains_alInsert_self]
  · simp [HomogUniv.get, hs, ← hvn, Bind.bind, Except.bind, hu2,
      getDict_setDict_self, alGet?_alInsert_self]

theorem set_get_roundtrip_and_overwrite_witness :
    ∃ u1 w1 u2,
      emptyUniv.set "INF_FLX" 1 false = .ok (u1, w1) ∧
      u1.get "INF_FLX" false = .ok (.single (some 1)) ∧
      u1.set "INF_FLX" 2 false = .ok (u2, 1) ∧
      u2.get "INF_FLX" false = .ok (.single (some 2)) :=
  set_get_roundtrip_and_overwrite "INF_FLX" .infExpS (by rfl) emptyUniv 1 2

/-- C10: for every name that classifies into a known family but was never
set, `get(name, uncertainty=False)` returns the `None` sentinel rather than
raising; `get` is a pure function of the store, so the lookup cannot change
the mappings. -/
theorem get_unset_returns_none {α : Type} (u : HomogUniv α)
    (name : String) (slot : Slot)
    (hs : lookupSlot (convertVariableName name) false = .ok slot)
    (hv : alGet? (u.getDict slot) (convertVariableName name) = none) :
    u.get name false = .ok (.single none) := by
  simp [HomogUniv.get, hs, hv, Bind.bind, Except.bind]

theorem get_unset_returns_none_witness :
    emptyUniv.get "INF_FLX" false = .ok (.single none) :=
  get_unset_returns_none emptyUniv "INF_FLX" .infExpS (by rfl) (by rfl)

/-- C4: a `getValues` call whose non-`None` time-point list contains at
least one point absent from the resolved x-axis raises a `KeyError` whose
item list enumerates every missing point (each missing point's string is a
member), not just the first.  `getValues` is a pure function of the
container, so the failed call cannot change the stored data. -/
theorem missing_time_points_all_enumerated
    (dm : DepletedMaterial) (xU yU : String) (tp : List ℚ) (ax : NpArr)
    (names : Option (List String))
    (hax : resolveAxisArr dm xU = .ok ax)
    (t0 : ℚ) (ht0 : t0 ∈ tp) (hmiss : npFlatMem ax t0 = false) :
    getValues dm xU yU (some tp) names =
      .error (.keyError ((tp.filter (fun t => !npFlatMem ax t)).map pyStr)) ∧
    ∀ t ∈ tp, npFlatMem ax t = false →
      pyStr t ∈ (tp.filter (fun t => !npFlatMem ax t)).map pyStr := by
  have hmem : t0 ∈ tp.filter (fun t => !npFlatMem ax t) := by
    simp [List.mem_filter, ht0, hmiss]
  have hne : (tp.filter (fun t => !npFlatMem ax t)) ≠ [] := by
    intro h
    rw [h] at hmem
    simp at hmem
  have hc : checkTimePoints dm xU tp =
      .ok ((tp.filter (fun t => !npFlatMem ax t)).map pyStr) := by
    simp [checkTimePoints, hax, Bind.bind, Except.bind]
  constructor
  · simp [getValues, hc, Bind.bind, Except.bind, hne]
  · intro t ht hm
    exact List.mem_map_of_mem pyStr (by simp [List.mem_filter, ht, hm])

theorem missing_time_points_all_enumerated_witness :
    getValues (mkMat3 1 2 3 4 5 6 7 8 9) "days" "adens" (some [15]) none =
      .error (.keyError ["15"]) ∧ "15" ∈ ["15"] := by
  have h := missing_time_points_all_enumerated (mkMat3 1 2 3 4 5 6 7 8 9)
    "days" "adens" [15] (NpArr.vec [0, 10, 20]) none (by rfl) 15 (by simp)
    (by rfl)
  exact ⟨h.1, h.2 15 (by simp) (by rfl)⟩

/-- C5: a `getValues` call that passes a (truthy) non-empty isotope-name
list while the container's isotope names were never loaded fails with the
`AttributeError` precondition failure before any slicing, regardless of
which names were requested (provided the earlier time-point check did not
already fail). -/
theorem names_requested_but_never_loaded
    (dm : DepletedMaterial) (xU yU : String) (timePoints : Option (List ℚ))
    (names : Option (List String))
    (hnone : dm.names = none) (htruthy : pyListTruthy names = true)
    (htp : timePoints = none ∨
      ∃ tp, timePoints = some tp ∧ checkTimePoints dm xU tp = .ok []) :
    getValues dm xU yU timePoints names =
      .error (.attrError "Isotope names not stored on DepletedMaterial") := by
  have hisnone : dm.names.isNone = true := by simp [hnone]
  rcases htp with h | ⟨tp, rfl, hc⟩
  · subst h
    simp [getValues, htruthy, hisnone, Bind.bind, Except.bind]
  · simp [getValues, hc, htruthy, hisnone, Bind.bind, Except.bind]

theorem names_requested_but_never_loaded_witness :
    getValues dmNoNames "days" "adens" none (some ["total"]) =
      .error (.attrError "Isotope names not stored on DepletedMaterial") :=
  names_requested_but_never_loaded dmNoNames "days" "adens" none
    (some ["total"]) (by rfl) (by rfl) (Or.inl rfl)

/-- C9: the claim says a single-row 2-D category is treated as a 1-D time
series, sliced by column indices into a 1-D result.  The code instead
routes the `(1, T)` array through `allY[colIndices]`, which on a 2-D numpy
array is *row* fancy indexing: with requested column index 2 it raises an
out-of-bounds `IndexError`, and with no time filter it returns the `(1, T)`
array unchanged — still 2-D. -/
theorem single_row_category_misindexed :
    getValues dmSingleRow "days" "adens" (some [0, 20]) (some ["total"]) =
      .error (.indexError "index out of bounds for axis 0") ∧
    getValues dmSingleRow "days" "adens" none (some ["total"]) =
      .ok (.mat [[1, 2, 3]]) := by
  exact ⟨by rfl, by rfl⟩

/-- C8: when the precheck's detector-start count differs from the number of
containers created, `postcheck` reports the mismatch (non-fatally, per the
spec's contract for the missing `messages.error`) and returns the
`detectors` mapping unchanged — no roll-back of parsed data. -/
theorem postcheck_mismatch_reports_and_keeps_data
    (r : DetectorReader) (lines : List String)
    (hcount : r.detCount = precheckCount lines)
    (hne : precheckCount lines ≠ r.detectors.length) :
    postcheck r =
      (r, ["Did not parse expected number of detectors in file"]) := by
  simp [postcheck, hcount, hne]

theorem postcheck_mismatch_reports_and_keeps_data_witness :
    postcheck rdrMismatch =
      (rdrMismatch, ["Did not parse expected number of detectors in file"]) :=
  postcheck_mismatch_reports_and_keeps_data rdrMismatch linesThree
    (by rfl) (by decide)

theorem pyDropLast_push (s : String) (c : Char) : pyDropLast (s.push c) = s := by
  cases s with
  | mk data => simp [pyDropLast, String.push]

theorem pyLastChar_push (s : String) (c : Char) :
    pyLastChar (s.push c) = some c := by
  cases s with
  | mk data => simp [pyLastChar, String.push]

theorem alInsert_fresh {κ α : Type} [DecidableEq κ] (d : List (κ × α))
    (k : κ) (v : α) (h : alContains d k = false) :
    alInsert d k v = d ++ [(k, v)] := by
  simp [alInsert, h]

theorem alContains_of_alGet? {κ α : Type} [DecidableEq κ]
    (d : List (κ × α)) (k : κ) (v : α) (h : alGet? d k = some v) :
    alContains d k = true := by
  simp [alContains, h]

/-- C3: (first conjunct) the first chunk seen for a fresh requested base
name creates the one container for that name and stores the chunk's data as
its tally; (second conjunct) a later chunk whose identifier is that base
name plus a one-character dimension suffix updates the existing container
in place — `grids[suffix]` is populated, the tally field is carried over
unchanged, the `detectors` mapping keeps the same number of entries (no
second container), and looking the base name up yields the container with
only its grids changed. -/
theorem detector_tally_once_grids_added :
    (∀ (r : DetectorReader) (hd : String) (body : List String) (name : String)
        (data : List (List ℚ)),
      detStringOf hd = name →
      alContains r.detectors (pyDropLast name) = false →
      alContains r.detectors name = false →
      (r.settingsNames.contains name || r.loadAll) = true →
      buildData none body = .ok data →
      processChunk r (hd :: body) =
        .ok { r with
                detectors := r.detectors ++ [(name, ⟨name, some data, []⟩)] }) ∧
    (∀ (r : DetectorReader) (hd : String) (body : List String) (base : String)
        (suffix : Char) (old : Detector) (data : List (List ℚ)),
      detStringOf hd = base.push suffix →
      alGet? r.detectors base = some old →
      buildData (some suffix) body = .ok data →
      processChunk r (hd :: body) =
        .ok { r with
                detectors := alSet r.detectors base
                  (gridUpdated old suffix data) } ∧
      (alSet r.detectors base (gridUpdated old suffix data)).length =
          r.detectors.length ∧
      alGet? (alSet r.detectors base (gridUpdated old suffix data)) base =
        some (gridUpdated old suffix data) ∧
      (gridUpdated old suffix data).tally = old.tally ∧
      alGet? (gridUpdated old suffix data).grids (some suffix) = some data) := by
  constructor
  · intro r hd body name data hname hdrop hfresh hreq hdata
    simp only [processChunk, hname, hdrop, Bool.false_eq_true, if_false,
      hreq, if_true]
    simp [addDetector, hdata, hfresh, Bind.bind, Except.bind,
      alInsert_fresh, Detector.addTallyData]
  · intro r hd body base suffix old data hname hold hdata
    have hcont := alContains_of_alGet? _ _ _ hold
    refine ⟨?_, by simp [alSet], alGet?_alSet_self _ _ _ hcont, by rfl,
      alGet?_alInsert_self _ _ _⟩
    simp only [processChunk, hname, pyDropLast_push, pyLastChar_push, hcont,
      if_true]
    simp [addDetector, hdata, hcont, hold, Bind.bind, Except.bind, gridUpdated]

theorem detector_tally_once_grids_added_witness :
    processChunk rdr0 ("DETD1 = [" :: chunkTallyBody) =
      .ok { rdr0 with detectors :=
        [("D1", ⟨"D1", some [[1, 2, 3, 4, 5, 6, 7, 8, 9, 10, 11, 12]], []⟩)] } ∧
    processChunk
      { rdr0 with detectors :=
        [("D1", ⟨"D1", some [[1, 2, 3, 4, 5, 6, 7, 8, 9, 10, 11, 12]], []⟩)] }
      ("DETD1E = [" :: chunkGridBody) =
      .ok { rdr0 with detectors :=
        [("D1", ⟨"D1", some [[1, 2, 3, 4, 5, 6, 7, 8, 9, 10, 11, 12]],
          [(some 'E', [[0, 10], [10, 20]])]⟩)] } := by
  constructor
  · exact detector_tally_once_grids_added.1 rdr0 "DETD1 = [" chunkTallyBody
      "D1" [[1, 2, 3, 4, 5, 6, 7, 8, 9, 10, 11, 12]]
      (by rfl) (by rfl) (by rfl) (by rfl) (by rfl)
  · exact (detector_tally_once_grids_added.2
      { rdr0 with detectors :=
        [("D1", ⟨"D1", some [[1, 2, 3, 4, 5, 6, 7, 8, 9, 10, 11, 12]], []⟩)] }
      "DETD1E = [" chunkGridBody "D1" 'E'
      ⟨"D1", some [[1, 2, 3, 4, 5, 6, 7, 8, 9, 10, 11, 12]], []⟩
      [[0, 10], [10, 20]]
      (by rfl) (by rfl) (by rfl)).1

theorem pyIndex?_of_mem (sns : List String) (n : String) (h : n ∈ sns) :
    ∃ i, pyIndex? sns n = some i ∧ i < sns.length := by
  induction sns with
  | nil => cases h
  | cons s ss ih =>
    by_cases hs : s = n
    · exact ⟨0, by simp [pyIndex?, hs], by simp⟩
    · have hm : n ∈ ss := by
        rcases List.mem_cons.mp h with h' | h'
        · exact absurd h'.symm hs
        · exact h'
      obtain ⟨i, hi, hlt⟩ := ih hm
      exact ⟨i + 1, by simp [pyIndex?, hs, hi], by simpa using Nat.succ_lt_succ hlt⟩

theorem indexAll_ok (sns ns : List String) (h : ∀ n ∈ ns, n ∈ sns) :
    ∃ ids, indexAll sns ns = .ok ids ∧ ids.length = ns.length ∧
      ∀ i ∈ ids, i < sns.length := by
  induction ns with
  | nil => exact ⟨[], rfl, rfl, by simp⟩
  | cons n ns ih =>
    obtain ⟨ids, hids, hlen, hbd⟩ :=
      ih (fun m hm => h m (List.mem_cons_of_mem _ hm))
    obtain ⟨i, hi, hilt⟩ := pyIndex?_of_mem sns n (h n (List.mem_cons_self _ _))
    refine ⟨i :: ids, ?_, by simp [hlen], ?_⟩
    · simp [indexAll, hi, hids, Bind.bind, Except.bind]
    · intro j hj
      rcases List.mem_cons.mp hj with rfl | hj'
      · exact hilt
      · exact hbd j hj'

theorem fancyIdx_ok {α : Type} (xs : List α) (cs : List Nat)
    (h : ∀ c ∈ cs, c < xs.length) :
    ∃ ys, fancyIdx xs cs = .ok ys ∧ ys.length = cs.length := by
  induction cs with
  | nil => exact ⟨[], rfl, rfl⟩
  | cons c cs ih =>
    obtain ⟨ys, hys, hlen⟩ := ih (fun x hx => h x (List.mem_cons_of_mem _ hx))
    have hc : c < xs.length := h c (List.mem_cons_self _ _)
    exact ⟨xs.get ⟨c, hc⟩ :: ys,
      by simp [fancyIdx, hc, hys, Bind.bind, Except.bind], by simp [hlen]⟩

theorem buildRows_ok (rows : List (List ℚ)) (cs : List Nat) (t : Nat)
    (ids : List Nat)
    (hid : ∀ i ∈ ids, i < rows.length)
    (hcs : ∀ r ∈ rows, ∀ c ∈ cs, c < r.length)
    (hlen : cs.length = t) (hne : cs ≠ []) :
    ∃ out, buildRows rows (some cs) t ids = .ok out ∧
      out.length = ids.length ∧ ∀ r ∈ out, r.length = t := by
  induction ids with
  | nil => exact ⟨[], rfl, rfl, by simp⟩
  | cons i ids ih =>
    obtain ⟨out, hout, holen, hrl⟩ :=
      ih (fun j hj => hid j (List.mem_cons_of_mem _ hj))
    have hi : i < rows.length := hid i (List.mem_cons_self _ _)
    have hrow : rows[i] ∈ rows := List.getElem_mem _
    obtain ⟨ys, hys, hyslen⟩ := fancyIdx_ok rows[i] cs (hcs _ hrow)
    have htruthy : optTruthy (some cs) = true := by
      cases cs with
      | nil => exact absurd rfl hne
      | cons c cs => rfl
    refine ⟨ys :: out, ?_, by simp [holen], ?_⟩
    · simp [buildRows, hi, htruthy, hys, hout, hyslen, hlen,
        Bind.bind, Except.bind]
    · intro r hr
      rcases List.mem_cons.mp hr with rfl | hr'
      · rw [hyslen, hlen]
      · exact hrl r hr'

theorem enumFrom_fst_lt {α : Type} (l : List α) :
    ∀ (k : Nat), ∀ p ∈ l.enumFrom k, p.1 < k + l.length := by
  induction l with
  | nil => intro k p hp; cases hp
  | cons x xs ih =>
    intro k p hp
    rcases List.mem_cons.mp hp with rfl | hp'
    · simp
    · have := ih (k + 1) p hp'
      simp only [List.length_cons]
      omega

theorem mem_enumFrom_of_mem {α : Type} (l : List α) (t : α) (h : t ∈ l) :
    ∀ k, ∃ i, (i, t) ∈ l.enumFrom k := by
  induction l with
  | nil => cases h
  | cons x xs ih =>
    intro k
    rcases List.mem_cons.mp h with rfl | h'
    · exact ⟨k, by simp⟩
    · obtain ⟨i, hi⟩ := ih h' (k + 1)
      exact ⟨i, List.mem_cons_of_mem _ hi⟩

theorem enumFrom_filter_snd_length {α : Type} (l : List α) (q : α → Bool) :
    ∀ k, ((l.enumFrom k).filter (fun p => q p.2)).length =
      (l.filter q).length := by
  induction l with
  | nil => intro k; rfl
  | cons x xs ih =>
    intro k
    by_cases hq : q x <;>
      simp [List.filter_cons, hq, ih (k + 1)]

theorem filter_mem_length (ax tp : List ℚ) (hax : ax.Nodup) (htp : tp.Nodup)
    (hsub : ∀ t ∈ tp, t ∈ ax) :
    (ax.filter (fun t => decide (t ∈ tp))).length = tp.length := by
  have hnd : (ax.filter (fun t => decide (t ∈ tp))).Nodup := hax.filter _
  have hfin : (ax.filter (fun t => decide (t ∈ tp))).toFinset = tp.toFinset := by
    ext a
    simp only [List.mem_toFinset, List.mem_filter, decide_eq_true_eq]
    exact ⟨fun h => h.2, fun h => ⟨hsub a h, h⟩⟩
  exact (List.perm_of_nodup_nodup_toFinset_eq hnd htp hfin).length_eq

/-- C1 counterexample: the claim's general clause — every 2-D stored
category yields a result shaped `(numIsotopesRequested,
numTimePointsRequested)` — fails on a 2-D `adens` array with a single row:
the call ends in an `IndexError` instead of returning a `(1, 2)` array. -/
theorem two_d_shape_claim_fails_on_single_row :
    getValues dmSingleRowB "days" "adens" (some [0, 20]) (some ["total"]) =
      .error (.indexError "index out of bounds for axis 0") := by
  rfl

/-- C1 (amended: the general shape clause holds for 2-D categories with at
least two rows; single-row 2-D arrays take the vector branch instead).
First conjunct: the spec's worked example — names
`["Xe135","Sm149","total"]`, days `[0,10,20]`, any 3×3 `adens` — where
`getValues("days","adens",[0,20],["Xe135","total"])` returns exactly rows
{0,2} and columns {0,2}.  Second conjunct: for every stored 2-D category
with at least two rows (row count matching the isotope-name count, row
length matching the axis length), distinct axis values, and a request for
existing time points and isotope names, the result is a matrix shaped
`(numIsotopesRequested, numTimePointsRequested)`. -/
theorem getValues_2d_slice_and_shape :
    (∀ a b c d e f g h i : ℚ,
      getValues (mkMat3 a b c d e f g h i) "days" "adens"
        (some [0, 20]) (some ["Xe135", "total"]) =
      .ok (.mat [[a, c], [g, i]])) ∧
    (∀ (dm : DepletedMaterial) (yU : String) (ax : List ℚ)
        (sns : List String) (rows : List (List ℚ)) (tp : List ℚ)
        (ns : List String),
      dm.days = some ax → dm.names = some sns →
      alGet? dm.data yU = some (.mat rows) →
      rows.length = sns.length → 2 ≤ rows.length →
      (∀ r ∈ rows, r.length = ax.length) →
      ax.Nodup → tp.Nodup → tp ≠ [] → (∀ t ∈ tp, t ∈ ax) →
      ns ≠ [] → (∀ n ∈ ns, n ∈ sns) →
      ∃ out, getValues dm "days" yU (some tp) (some ns) = .ok (.mat out) ∧
        out.length = ns.length ∧ ∀ r ∈ out, r.length = tp.length) := by
  constructor
  · intro a b c d e f g h i
    rfl
  · intro dm yU ax sns rows tp ns hdays hnames hdata hrs h2 hrowlen haxnd
      htpnd htpne hsubtp hnsne hsubns
    obtain ⟨n0, ns', rfl⟩ : ∃ n0 ns', ns = n0 :: ns' := by
      cases ns with
      | nil => exact absurd rfl hnsne
      | cons n0 ns' => exact ⟨n0, ns', rfl⟩
    have hres : resolveAxisArr dm "days" = .ok (.vec ax) := by
      simp [resolveAxisArr, hdays]
    have hfil : tp.filter (fun t => !npFlatMem (.vec ax) t) = [] :=
      List.filter_eq_nil_iff.mpr (fun t ht => by
        simp [npFlatMem, hsubtp t ht])
    have hchk : checkTimePoints dm "days" tp = .ok [] := by
      simp [checkTimePoints, hres, hfil, Bind.bind, Except.bind]
    have hcsbd : ∀ c ∈ (ax.enum.filter
        (fun p => decide (p.2 ∈ tp))).map Prod.fst, c < ax.length := by
      intro c hc
      obtain ⟨p, hp, rfl⟩ := List.mem_map.mp hc
      have hpe := (List.mem_filter.mp hp).1
      have := enumFrom_fst_lt ax 0 p (by simpa [List.enum] using hpe)
      simpa using this
    have hcsne : (ax.enum.filter
        (fun p => decide (p.2 ∈ tp))).map Prod.fst ≠ [] := by
      obtain ⟨t, ht⟩ := List.exists_mem_of_ne_nil tp htpne
      obtain ⟨i, hi⟩ := mem_enumFrom_of_mem ax t (hsubtp t ht) 0
      intro hnil
      have hmem : (i, t) ∈ ax.enum.filter (fun p => decide (p.2 ∈ tp)) :=
        List.mem_filter.mpr ⟨by simpa [List.enum] using hi, by simpa using ht⟩
      have : i ∈ (ax.enum.filter
          (fun p => decide (p.2 ∈ tp))).map Prod.fst :=
        List.mem_map_of_mem Prod.fst hmem
      rw [hnil] at this
      cases this
    have hcslen : ((ax.enum.filter
        (fun p => decide (p.2 ∈ tp))).map Prod.fst).length = tp.length := by
      rw [List.length_map]
      have h1 : (ax.enum.filter (fun p => decide (p.2 ∈ tp))).length =
          (ax.filter (fun t => decide (t ∈ tp))).length := by
        simpa [List.enum] using
          enumFrom_filter_snd_length ax (fun t => decide (t ∈ tp)) 0
      rw [h1, filter_mem_length ax tp haxnd htpnd hsubtp]
    obtain ⟨ids, hids, hidlen, hidbd⟩ := indexAll_ok sns (n0 :: ns') hsubns
    have hgetIso : getIsoID dm (some (n0 :: ns')) = .ok ids := by
      simp [getIsoID, hnames, pyListTruthy, hids]
    obtain ⟨out, hout, holen, horow⟩ := buildRows_ok rows
      ((ax.enum.filter (fun p => decide (p.2 ∈ tp))).map Prod.fst)
      ((ax.enum.filter (fun p => decide (p.2 ∈ tp))).map Prod.fst).length ids
      (fun j hj => hrs ▸ hidbd j hj)
      (fun r hr c hc => (hrowlen r hr) ▸ hcsbd c hc)
      rfl hcsne
    refine ⟨out, ?_, by rw [holen, hidlen], fun r hr => by
      rw [horow r hr, hcslen]⟩
    have hxs : getXSlice dm "days" (some tp) =
        .ok (.vec (((ax.enum.filter (fun p => decide (p.2 ∈ tp))).map
          Prod.fst).map (fun i => ax.getD i 0)),
          some ((ax.enum.filter (fun p => decide (p.2 ∈ tp))).map
            Prod.fst)) := by
      simp [getXSlice, hres, Bind.bind, Except.bind]
    have hne1 : rows.length ≠ 1 := by omega
    have hbody : getValuesBody dm "days" yU (some tp) (some (n0 :: ns')) =
        .ok (.mat out) := by
      simp only [getValuesBody, hxs, hgetIso, hdata, Bind.bind, Except.bind]
      simp only [sliceY, hne1, if_false, npLen, List.length_map]
      simp only [List.length_map] at hout
      simp [hout, Bind.bind, Except.bind]
    have hnn : dm.names.isNone = false := by simp [hnames]
    simp [getValues, hchk, hnn, pyListTruthy, Bind.bind, Except.bind, hbody]

theorem getValues_2d_slice_and_shape_witness :
    getValues (mkMat3 1 2 3 4 5 6 7 8 9) "days" "adens"
      (some [0, 20]) (some ["Xe135", "total"]) = .ok (.mat [[1, 3], [7, 9]]) ∧
    ∃ out, getValues (mkMat3 1 2 3 4 5 6 7 8 9) "days" "adens"
        (some [0, 20]) (some ["Xe135", "total"]) = .ok (.mat out) ∧
      out.length = 2 ∧ ∀ r ∈ out, r.length = 2 := by
  constructor
  · exact getValues_2d_slice_and_shape.1 1 2 3 4 5 6 7 8 9
  · have h := getValues_2d_slice_and_shape.2 (mkMat3 1 2 3 4 5 6 7 8 9)
      "adens" [0, 10, 20] ["Xe135", "Sm149", "total"]
      [[1, 2, 3], [4, 5, 6], [7, 8, 9]] [0, 20] ["Xe135", "total"]
      (by rfl) (by rfl) (by rfl) (by rfl) (by decide) (by decide)
      (by decide) (by decide) (by decide) (by decide) (by decide) (by decide)
    simpa using h
